import Mathlib

/-!
Verification development for the classroom-downloader repository.

The definitions below are a shallow embedding of the download
orchestration and deduplication pipeline of the repository:

* `src/backend/downloader.py` — `DownloadProgress` (progress tracker),
  `FileDownloader` (attachment fetcher and download orchestrator);
* `src/backend/file_manager.py` — `FileSystemManager` (path resolver);
* `src/backend/database.py` — `DatabaseManager.check_duplicate_by_hash`
  and `DatabaseManager.add_material` (storage collaborator).

External collaborators (the Drive HTTP endpoints, the SQLite engine, the
filesystem, Python's `hashlib`/`uuid`/`unicodedata`) are modelled as
explicit oracle parameters: pure functions or values supplied to the
embedded code.  Python strings are modelled as `List Char` (one element
per code point, matching Python's `len` and slicing), byte strings as
`List Nat`, and `dict.get(k, default)` as `Option.getD`.
-/

namespace ClassroomDownloader

/-! ## Progress tracker: `DownloadProgress` (downloader.py lines 21-87)

`current_file`, `current_progress`, `session_id`, `start_time` and the
per-file audit list do not affect any counter or the snapshot fields the
claims mention; the counters and the error list are embedded exactly.
The Python float division in `get_overall_progress` is modelled over `ℚ`;
for the values the claims discuss ((k/t)*100 with small naturals) IEEE
double arithmetic is exact, so the embedding is faithful there. -/

structure DownloadProgress where
  total_files : Nat := 0
  completed_files : Nat := 0
  failed_files : Nat := 0
  duplicates_skipped : Nat := 0
  errors : List String := []
  deriving Repr, DecidableEq

/-- Embedding of `DownloadProgress.complete_file` (downloader.py 41-55):
increments `completed_files` on success, otherwise increments
`failed_files` and, when the error message is non-empty, appends
`"{filename}: {error}"` to the error list. -/
def complete_file (p : DownloadProgress) (filename : String) (success : Bool)
    (error : String) : DownloadProgress :=
  if success then
    { p with completed_files := p.completed_files + 1 }
  else
    { p with failed_files := p.failed_files + 1,
             errors := if error ≠ "" then p.errors ++ [filename ++ ": " ++ error]
                       else p.errors }

/-- Embedding of `DownloadProgress.skip_duplicate` (downloader.py 57-65). -/
def skip_duplicate (p : DownloadProgress) (_filename : String) : DownloadProgress :=
  { p with duplicates_skipped := p.duplicates_skipped + 1 }

/-- Embedding of `DownloadProgress.get_overall_progress` (downloader.py 67-71). -/
def get_overall_progress (p : DownloadProgress) : ℚ :=
  if p.total_files = 0 then 0
  else ((p.completed_files + p.failed_files + p.duplicates_skipped : ℚ) /
        (p.total_files : ℚ)) * 100

/-- Embedding of the `is_complete` field of
`DownloadProgress.get_status_dict` (downloader.py 86). -/
def is_complete (p : DownloadProgress) : Bool :=
  p.completed_files + p.failed_files + p.duplicates_skipped ≥ p.total_files

/-- One completion event reported by a fetcher to the progress tracker:
either a `complete_file` call or a `skip_duplicate` call. -/
inductive ProgressEvent where
  | completion (filename : String) (success : Bool) (error : String)
  | duplicate (filename : String)
  deriving Repr, DecidableEq

/-- Applying one completion event to the tracker state. -/
def apply_event (p : DownloadProgress) : ProgressEvent → DownloadProgress
  | .completion filename success error => complete_file p filename success error
  | .duplicate filename => skip_duplicate p filename

/-- A fresh tracker for a batch of `n` files, as built by
`download_attachments` (downloader.py 429-430). -/
def fresh_progress (n : Nat) : DownloadProgress := { total_files := n }

/-- The tracker state after an arbitrary interleaving of completion events. -/
def run_events (n : Nat) (events : List ProgressEvent) : DownloadProgress :=
  events.foldl apply_event (fresh_progress n)

/-! ## Orchestrator concurrency gate (downloader.py 434-444)

`download_attachments` wraps every `_process_single_attachment` call in
`async with semaphore` where `semaphore = asyncio.Semaphore(max_concurrent)`.
The cooperative scheduling of the event loop is embedded as a transition
system: a state counts the tasks not yet started, the fetch invocations
currently in flight (holding a semaphore permit), and the finished tasks;
a task may start only when a permit is free (`active < max_concurrent`),
exactly the guard `asyncio.Semaphore` enforces, and any interleaving of
starts and finishes is a path of the relation. -/

structure OrchestratorState where
  pending : Nat
  active : Nat
  finished : Nat
  deriving Repr, DecidableEq

/-- One scheduler step of the bounded-concurrency batch: starting a task
consumes a semaphore permit (possible only when `active < max_concurrent`),
finishing a task releases it.  Suspensions at I/O or rate-limit waits keep
the task in `active`, so no other transition exists. -/
inductive orchestrator_step (max_concurrent : Nat) :
    OrchestratorState → OrchestratorState → Prop where
  | start (p a f : Nat) (hp : 0 < p) (ha : a < max_concurrent) :
      orchestrator_step max_concurrent ⟨p, a, f⟩ ⟨p - 1, a + 1, f⟩
  | finish (p a f : Nat) (ha : 0 < a) :
      orchestrator_step max_concurrent ⟨p, a, f⟩ ⟨p, a - 1, f + 1⟩

/-- States reachable by the batch of `n` attachments: initially all `n`
tasks are pending and none is in flight. -/
inductive orchestrator_reachable (max_concurrent n : Nat) :
    OrchestratorState → Prop where
  | init : orchestrator_reachable max_concurrent n ⟨n, 0, 0⟩
  | step {s s' : OrchestratorState} :
      orchestrator_reachable max_concurrent n s →
      orchestrator_step max_concurrent s s' →
      orchestrator_reachable max_concurrent n s'

/-! ## Path resolver: `FileSystemManager` (file_manager.py)

Python strings are `List Char`.  `unicodedata.normalize('NFKD', ·)` is an
external stdlib call and is passed in as the oracle parameter `nfkd`
(it is the identity on ASCII strings). -/

/-- The characters replaced by `re.sub(r'[<>:"/\\|?*]', '_', ·)`
(file_manager.py 85-86). -/
def unsafeChar (c : Char) : Bool :=
  decide (c = '<' ∨ c = '>' ∨ c = ':' ∨ c = '"' ∨ c = '/' ∨ c = '\\' ∨
          c = '|' ∨ c = '?' ∨ c = '*')

/-- The characters removed by the `ord(char) >= 32` filter
(file_manager.py 89). -/
def ctrlChar (c : Char) : Bool := decide (c.toNat < 32)

/-- The code points matched by Python's `\s` in a `str` pattern
(`re.UNICODE` whitespace).  Code points below 32 never survive to the
collapse step (the control filter runs first), but the set is embedded
in full. -/
def pySpaceChar (c : Char) : Bool :=
  decide ((9 ≤ c.toNat ∧ c.toNat ≤ 13) ∨ (28 ≤ c.toNat ∧ c.toNat ≤ 32) ∨
          c.toNat = 0x85 ∨ c.toNat = 0xA0 ∨ c.toNat = 0x1680 ∨
          (0x2000 ≤ c.toNat ∧ c.toNat ≤ 0x200A) ∨ c.toNat = 0x2028 ∨
          c.toNat = 0x2029 ∨ c.toNat = 0x202F ∨ c.toNat = 0x205F ∨
          c.toNat = 0x3000)

/-- The character class `[\s_]` collapsed by file_manager.py 95. -/
def collapseTarget (c : Char) : Bool := pySpaceChar c || c = '_'

/-- The strip set of Python `str.strip('. ')` (file_manager.py 92). -/
def dotSpace (c : Char) : Bool := decide (c = '.' ∨ c = ' ')

/-- The strip set of Python `str.rstrip('_. ')` (file_manager.py 101, 120). -/
def dotSpaceUnderscore (c : Char) : Bool := decide (c = '.' ∨ c = ' ' ∨ c = '_')

/-- `re.sub(r'[<>:"/\\|?*]', '_', ·)` (file_manager.py 86). -/
def subUnsafe (l : List Char) : List Char :=
  l.map fun c => if unsafeChar c then '_' else c

/-- `''.join(char for char in filename if ord(char) >= 32)` (file_manager.py 89). -/
def removeCtrl (l : List Char) : List Char := l.filter fun c => !ctrlChar c

/-- Python `str.lstrip` restricted to a character set. -/
def lstripChars (p : Char → Bool) : List Char → List Char
  | [] => []
  | c :: cs => if p c then lstripChars p cs else c :: cs

/-- Python `str.rstrip` restricted to a character set. -/
def rstripChars (p : Char → Bool) (l : List Char) : List Char :=
  (lstripChars p l.reverse).reverse

/-- Python `str.strip` restricted to a character set. -/
def stripChars (p : Char → Bool) (l : List Char) : List Char :=
  rstripChars p (lstripChars p l)

/-- `re.sub(r'[\s_]+', '_', ·)` (file_manager.py 95): every maximal run
of whitespace/underscore characters becomes a single underscore. -/
def collapseRuns : List Char → List Char
  | [] => []
  | c :: cs =>
    if collapseTarget c then
      if (collapseRuns cs).head? = some '_' then collapseRuns cs
      else '_' :: collapseRuns cs
    else c :: collapseRuns cs

/-- `os.path.splitext` (CPython `genericpath._splitext`) on a string with
no path separators (by the time the downloader calls it, `/` and `\\`
have been replaced by `_`): the extension starts at the last dot,
provided some character of the name before that dot is not a dot. -/
def splitext (p : List Char) : List Char × List Char :=
  if (p.reverse.dropWhile fun c => !decide (c = '.')) ≠ [] ∧
      ((p.reverse.dropWhile fun c => !decide (c = '.')).tail.any
        fun c => !decide (c = '.')) then
    ((p.reverse.dropWhile fun c => !decide (c = '.')).tail.reverse,
     '.' :: (p.reverse.takeWhile fun c => !decide (c = '.')).reverse)
  else (p, [])

/-- Python slice `l[:m]` for an `int` bound `m` (negative bounds count
from the end, clamping at 0). -/
def pyTakeFront (l : List Char) (m : Int) : List Char :=
  if 0 ≤ m then l.take m.toNat else l.take ((l.length : Int) + m).toNat

/-- Steps 1-5 of `FileSystemManager.sanitize_filename`
(file_manager.py 82-95): NFKD-normalize, replace unsafe characters,
drop control characters, strip leading/trailing dots and spaces,
collapse whitespace/underscore runs. -/
def preClean (nfkd : List Char → List Char) (filename : List Char) : List Char :=
  collapseRuns (stripChars dotSpace (removeCtrl (subUnsafe (nfkd filename))))

/-- The length-limiting step of `sanitize_filename` (file_manager.py 98-101):
`name[:max_length - len(ext)].rstrip('_. ') + ext` when too long. -/
def truncateName (g : List Char) (max_length : Nat) : List Char :=
  if max_length < g.length then
    rstripChars dotSpaceUnderscore
        (pyTakeFront (splitext g).1
          ((max_length : Int) - ((splitext g).2.length : Int))) ++ (splitext g).2
  else g

/-- The final guard of `sanitize_filename` (file_manager.py 104-105):
empty results and the names `.` and `..` become `untitled`. -/
def finalizeName (g : List Char) : List Char :=
  if g = [] ∨ g = ['.'] ∨ g = ['.', '.'] then "untitled".toList else g

/-- Embedding of `FileSystemManager.sanitize_filename`
(file_manager.py 78-107). -/
def sanitize_filename (nfkd : List Char → List Char) (filename : List Char)
    (max_length : Nat := 200) : List Char :=
  finalizeName (truncateName (preClean nfkd filename) max_length)

/-- Embedding of `FileSystemManager.sanitize_course_name`
(file_manager.py 109-125): same cleanup pipeline, truncation to 100
characters without extension preservation, `Untitled_Course` fallback. -/
def sanitize_course_name (nfkd : List Char → List Char) (course_name : List Char) :
    List Char :=
  let g := preClean nfkd course_name
  let g := if 100 < g.length then rstripChars dotSpaceUnderscore (g.take 100) else g
  if g = [] then "Untitled_Course".toList else g

/-- The relation `no two adjacent underscores`, the shape guaranteed by
the run-collapsing substitution. -/
def noUU (a b : Char) : Prop := ¬(a = '_' ∧ b = '_')

instance : DecidableRel noUU := fun a b =>
  inferInstanceAs (Decidable (¬(a = '_' ∧ b = '_')))

/-! ## Collision-free naming: `_ensure_unique_filename` (file_manager.py 192-216)

The filesystem directory is modelled by the existence oracle
`ex : List Char → Bool` (the `Path.exists()` calls), restricted to the
parent directory of the candidate path; `stem`/`ext` are the
`file_path.stem` and `file_path.suffix` pieces pathlib supplies;
`uuid_hex` is the external `uuid.uuid4().hex[:8]` random value. -/

/-- The candidate `f"{name}_{counter}{extension}"` tried by the loop. -/
def candidate_name (stem ext : List Char) (k : Nat) : List Char :=
  stem ++ ('_' :: (Nat.repr k).toList) ++ ext

/-- The `while True` loop of `_ensure_unique_filename`: counters `c`,
`c+1`, ... are tried while fuel lasts; the loop body gives up after
counter 9999 and returns the random-suffix name without checking its
existence.  Called with `c = 1`, `fuel = 9999`, mirroring the source. -/
def unique_from (ex : List Char → Bool) (stem ext uuid_hex : List Char) :
    Nat → Nat → List Char
  | _, 0 => stem ++ ('_' :: uuid_hex) ++ ext
  | c, fuel + 1 =>
    if ex (candidate_name stem ext c) = false then candidate_name stem ext c
    else unique_from ex stem ext uuid_hex (c + 1) fuel

/-- Embedding of `FileSystemManager._ensure_unique_filename`
(file_manager.py 192-216). -/
def ensure_unique_filename (ex : List Char → Bool) (stem ext uuid_hex : List Char) :
    List Char :=
  if ex (stem ++ ext) = false then stem ++ ext
  else unique_from ex stem ext uuid_hex 1 9999

/-! ## Categorization and path resolution
(`FileSystemManager.get_file_category` / `get_file_path`) -/

/-- Python truthiness of an optional string (`if not x` on a value that
is absent, `None`-free: absent key or empty string are falsy). -/
def pyTruthy : Option String → Bool
  | none => false
  | some s => !(s == "")

/-- Python `str(...)` interpolation of a possibly missing value
(`f"{x}"` renders `None` as the string `None`). -/
def pyStr : Option String → String
  | none => "None"
  | some s => s

/-- `FileSystemManager.MIME_EXTENSIONS` (file_manager.py 14-48), in
source (insertion) order. -/
def MIME_EXTENSIONS : List (String × String) := [
  ("application/pdf", ".pdf"),
  ("application/vnd.google-apps.document", ".pdf"),
  ("application/vnd.google-apps.presentation", ".pdf"),
  ("application/vnd.google-apps.spreadsheet", ".xlsx"),
  ("application/vnd.openxmlformats-officedocument.wordprocessingml.document", ".docx"),
  ("application/vnd.openxmlformats-officedocument.presentationml.presentation", ".pptx"),
  ("application/vnd.openxmlformats-officedocument.spreadsheetml.sheet", ".xlsx"),
  ("application/msword", ".doc"),
  ("application/vnd.ms-powerpoint", ".ppt"),
  ("application/vnd.ms-excel", ".xls"),
  ("text/plain", ".txt"),
  ("text/html", ".html"),
  ("text/css", ".css"),
  ("text/javascript", ".js"),
  ("application/json", ".json"),
  ("application/xml", ".xml"),
  ("text/xml", ".xml"),
  ("image/jpeg", ".jpg"),
  ("image/png", ".png"),
  ("image/gif", ".gif"),
  ("image/bmp", ".bmp"),
  ("image/svg+xml", ".svg"),
  ("video/mp4", ".mp4"),
  ("video/mpeg", ".mpeg"),
  ("video/quicktime", ".mov"),
  ("video/x-msvideo", ".avi"),
  ("audio/mpeg", ".mp3"),
  ("audio/wav", ".wav"),
  ("audio/ogg", ".ogg"),
  ("application/zip", ".zip"),
  ("application/x-rar-compressed", ".rar"),
  ("application/x-7z-compressed", ".7z")]

/-- `FileSystemManager.FILE_CATEGORIES` (file_manager.py 50-62), in
source (insertion) order — the order the category loop iterates in. -/
def FILE_CATEGORIES : List (String × List String) := [
  ("PDFs", [".pdf"]),
  ("Documents", [".doc", ".docx", ".odt", ".rtf", ".txt"]),
  ("Presentations", [".ppt", ".pptx", ".odp"]),
  ("Spreadsheets", [".xls", ".xlsx", ".ods", ".csv"]),
  ("Images", [".jpg", ".jpeg", ".png", ".gif", ".bmp", ".svg", ".tiff"]),
  ("Videos", [".mp4", ".avi", ".mov", ".wmv", ".flv", ".webm", ".mkv", ".mpeg"]),
  ("Audio", [".mp3", ".wav", ".ogg", ".m4a", ".flac", ".aac"]),
  ("Archives", [".zip", ".rar", ".7z", ".tar", ".gz"]),
  ("Web", [".html", ".htm", ".css", ".js", ".json", ".xml"]),
  ("Other", [])]

/-- Embedding of `FileSystemManager.get_file_category`
(file_manager.py 127-141).  Python `str.lower()` is modelled by
`Char.toLower`; the two agree on ASCII, the alphabet of every extension
in the lookup tables. -/
def get_file_category (filename : List Char) (mime_type : Option String) : String :=
  let ext0 := String.mk (splitext (filename.map Char.toLower)).2
  let ext := if ext0 = "" ∧ pyTruthy mime_type then
      match mime_type with
      | some m => (MIME_EXTENSIONS.lookup m).getD ""
      | none => ""
    else ext0
  match FILE_CATEGORIES.find? (fun p => p.2.contains ext) with
  | some p => p.1
  | none => "Other"

/-- A resolved local path `base_dir / course / category / filename`
(`base_dir` is fixed and omitted). -/
structure ResolvedPath where
  course : List Char
  category : String
  filename : List Char
  deriving Repr, DecidableEq

/-- `pathlib`'s `stem`/`suffix` split used by `_ensure_unique_filename`:
the suffix starts at the last dot provided that dot is neither the first
nor the last character of the name. -/
def pathlib_split (name : List Char) : List Char × List Char :=
  if (name.reverse.dropWhile fun c => !decide (c = '.')) ≠ [] ∧
      (name.reverse.dropWhile fun c => !decide (c = '.')).tail ≠ [] ∧
      (name.reverse.takeWhile fun c => !decide (c = '.')) ≠ [] then
    ((name.reverse.dropWhile fun c => !decide (c = '.')).tail.reverse,
     '.' :: (name.reverse.takeWhile fun c => !decide (c = '.')).reverse)
  else (name, [])

/-- Embedding of `FileSystemManager.get_file_path` (file_manager.py
158-190).  The filesystem is the existence oracle `ex`; directory
creation is a side effect with no bearing on the returned path. -/
def get_file_path (nfkd : List Char → List Char) (ex : ResolvedPath → Bool)
    (uuid_hex : List Char) (course_name filename : List Char)
    (mime_type : Option String) (ensure_unique : Bool := true) : ResolvedPath :=
  let course_name := if course_name = [] ∨
      String.mk (course_name.map Char.toLower) = "uncategorized" then
      "Uncategorized".toList else course_name
  let safe_course := sanitize_course_name nfkd course_name
  let safe_filename := sanitize_filename nfkd filename 200
  let safe_filename :=
    match mime_type with
    | some m =>
      if (splitext safe_filename).2 = [] ∧ m ≠ "" then
        match MIME_EXTENSIONS.lookup m with
        | some e => safe_filename ++ e.toList
        | none => safe_filename
      else safe_filename
    | none => safe_filename
  let category := get_file_category safe_filename mime_type
  if ensure_unique then
    ⟨safe_course, category,
      ensure_unique_filename (fun nm => ex ⟨safe_course, category, nm⟩)
        (pathlib_split safe_filename).1 (pathlib_split safe_filename).2 uuid_hex⟩
  else ⟨safe_course, category, safe_filename⟩

/-! ## Attachment fetcher: `FileDownloader` (downloader.py)

Each per-attachment fetch is embedded as a pure function from the
attachment descriptor, the oracle bundle and the current database state
to a `FetchEffect`: the ordered list of progress completion events it
fires, the material records it persists, the files it writes, the number
of content-body fetches it performs, and its boolean return value. -/

/-- A normalized attachment descriptor (the Python dict), each `.get`
access modelled by an `Option` field. -/
structure Attachment where
  att_type : Option String := none
  drive_file_id : Option String := none
  youtube_id : Option String := none
  url : Option String := none
  form_url : Option String := none
  title : Option String := none
  course_name : Option String := none
  course_id : Option String := none
  material_title : Option String := none
  material_description : Option String := none
  material_type : Option String := none
  creation_time : Option String := none
  update_time : Option String := none
  thumbnail_url : Option String := none
  deriving Repr, DecidableEq

/-- A persisted material row (database.py `add_material`, 221-253);
`download_date` is wall-clock and omitted. -/
structure MaterialRecord where
  title : String
  date_created : Option String := none
  date_updated : Option String := none
  mime_type : String
  course_id : Option String := none
  course_name : String
  local_path : ResolvedPath
  remote_id : Option String := none
  file_size : Nat := 0
  file_hash : String
  material_type : String
  is_duplicate : Bool := false
  original_url : Option String := none
  description : String := ""
  deriving Repr, DecidableEq

/-- Embedding of `DatabaseManager.check_duplicate_by_hash`
(database.py 295-310): first row whose `file_hash` equals the argument
and whose `is_duplicate` flag is clear (the non-error path of the
SQLite query). -/
def check_duplicate_by_hash (file_hash : String) (db : List MaterialRecord) :
    Option MaterialRecord :=
  db.find? fun r => r.file_hash == file_hash && !r.is_duplicate

/-- Drive file metadata as returned by `_get_file_metadata`
(downloader.py 140-160); `none` for any HTTP or transport failure. -/
structure DriveMetadata where
  name : Option String := none
  mimeType : Option String := none
  size : Option String := none
  md5Checksum : Option String := none
  deriving Repr, DecidableEq

/-- The oracle bundle for one fetch: the NFKD normalizer, the
filesystem existence oracle, the `uuid4` hex value, the metadata and
content-body responses of the Drive endpoints, `hashlib.sha256` over
bytes and over UTF-8 encoded text, and the SQLite success flag of
`add_material`. -/
structure FetchOracles where
  nfkd : List Char → List Char
  ex : ResolvedPath → Bool
  uuid_hex : List Char
  metadata : Option DriveMetadata
  body : Option (List Nat)
  sha256 : List Nat → String
  sha256_text : String → String
  db_ok : Bool

/-- Everything one fetch invocation does, in order. -/
structure FetchEffect where
  events : List ProgressEvent
  new_records : List MaterialRecord
  text_writes : List (ResolvedPath × String) := []
  byte_writes : List (ResolvedPath × List Nat) := []
  body_fetches : Nat
  ret : Bool
  deriving Repr, DecidableEq

/-- `FileDownloader.export_formats` (downloader.py 110-115). -/
def export_formats : List (String × String) := [
  ("application/vnd.google-apps.document", "application/pdf"),
  ("application/vnd.google-apps.presentation", "application/pdf"),
  ("application/vnd.google-apps.spreadsheet",
    "application/vnd.openxmlformats-officedocument.spreadsheetml.sheet"),
  ("application/vnd.google-apps.drawing", "application/pdf")]

/-- Python `name.rsplit('.', 1)[0]` guarded by `'.' in name`
(downloader.py 214): the name up to its last dot. -/
def drop_last_ext (name : List Char) : List Char :=
  if '.' ∈ name then
    ((name.reverse.dropWhile fun c => !decide (c = '.')).tail).reverse
  else name

/-- The effective content type of a drive download:
`export_mime_type or mime_type` (downloader.py 211, 240, 269). -/
def effective_mime (mime : String) : String :=
  (export_formats.lookup mime).getD mime

/-- The target filename chosen for a drive file (downloader.py 212-222):
Google-native documents, presentations and drawings are exported to PDF
and renamed `*.pdf`, spreadsheets to XLSX and renamed `*.xlsx`; all
other content types keep the remote name. -/
def export_filename (mime : String) (original_name : List Char) : List Char :=
  match export_formats.lookup mime with
  | some em =>
    if em = "application/pdf" then drop_last_ext original_name ++ ".pdf".toList
    else if em = "application/vnd.openxmlformats-officedocument.spreadsheetml.sheet"
      then drop_last_ext original_name ++ ".xlsx".toList
    else original_name
  | none => original_name

/-- Embedding of `FileDownloader._process_drive_file`
(downloader.py 193-296), success paths and the modelled failure paths
(missing id, failed metadata, failed body download, failed persistence).
The two early returns at lines 197-199 and 203-204 fire no progress
event — exactly as in the source. -/
def process_drive_file (o : FetchOracles) (att : Attachment)
    (db : List MaterialRecord) : FetchEffect :=
  if pyTruthy att.drive_file_id = false then
    { events := [], new_records := [], body_fetches := 0, ret := false }
  else
    match o.metadata with
    | none => { events := [], new_records := [], body_fetches := 0, ret := false }
    | some md =>
      let original_name := (md.name.getD (att.title.getD "Untitled")).toList
      let mime := md.mimeType.getD "application/octet-stream"
      let filename := export_filename mime original_name
      if pyTruthy md.md5Checksum ∧
          (check_duplicate_by_hash (md.md5Checksum.getD "") db).isSome then
        { events := [ProgressEvent.duplicate (String.mk filename)],
          new_records := [], body_fetches := 0, ret := true }
      else
        let course_name := att.course_name.getD "Uncategorized"
        let path := get_file_path o.nfkd o.ex o.uuid_hex course_name.toList
          filename (some (effective_mime mime)) true
        match o.body with
        | none =>
          { events := [ProgressEvent.completion (String.mk filename) false
              "Failed to download content"],
            new_records := [], body_fetches := 1, ret := false }
        | some content =>
          let record : MaterialRecord := {
            title := String.mk filename
            date_created := att.creation_time
            date_updated := att.update_time
            mime_type := effective_mime mime
            course_id := att.course_id
            course_name := course_name
            local_path := path
            remote_id := att.drive_file_id
            file_size := content.length
            file_hash := o.sha256 content
            material_type := att.material_type.getD "ATTACHMENT"
            original_url := some ("https://drive.google.com/file/d/" ++
              att.drive_file_id.getD "" ++ "/view")
            description := att.material_description.getD "" }
          if o.db_ok then
            { events := [ProgressEvent.completion (String.mk filename) true ""],
              new_records := [record], byte_writes := [(path, content)],
              body_fetches := 1, ret := true }
          else
            { events := [ProgressEvent.completion (String.mk filename) false
                "Database save failed"],
              new_records := [], byte_writes := [(path, content)],
              body_fetches := 1, ret := false }

/-- Embedding of `FileDownloader._process_youtube_video`
(downloader.py 298-350), non-exception paths. -/
def process_youtube_video (o : FetchOracles) (att : Attachment)
    (_db : List MaterialRecord) : FetchEffect :=
  let title := att.title.getD "YouTube Video"
  let content := "YouTube Video: " ++ title ++
    "\nVideo ID: " ++ pyStr att.youtube_id ++
    "\nURL: https://www.youtube.com/watch?v=" ++ pyStr att.youtube_id ++
    "\nThumbnail: " ++ att.thumbnail_url.getD "" ++
    "\nMaterial: " ++ att.material_title.getD "" ++
    "\nDescription: " ++ att.material_description.getD "" ++
    "\nDate: " ++ att.creation_time.getD "" ++ "\n"
  let filename := sanitize_filename o.nfkd title.toList 200 ++ ".txt".toList
  let course_name := att.course_name.getD "Uncategorized"
  let path := get_file_path o.nfkd o.ex o.uuid_hex course_name.toList filename
    (some "text/plain") true
  let record : MaterialRecord := {
    title := title
    date_created := att.creation_time
    date_updated := att.update_time
    mime_type := "text/plain"
    course_id := att.course_id
    course_name := course_name
    local_path := path
    remote_id := att.youtube_id
    file_size := content.utf8ByteSize
    file_hash := o.sha256_text content
    material_type := "YOUTUBE_VIDEO"
    original_url := some ("https://www.youtube.com/watch?v=" ++ pyStr att.youtube_id)
    description := att.material_description.getD "" }
  { events := [ProgressEvent.completion (String.mk filename) o.db_ok
      (if o.db_ok then "" else "Database save failed")],
    new_records := if o.db_ok then [record] else [],
    text_writes := [(path, content)], body_fetches := 0, ret := o.db_ok }

/-- Embedding of `FileDownloader._process_link` (downloader.py 352-401),
non-exception paths. -/
def process_link (o : FetchOracles) (att : Attachment)
    (_db : List MaterialRecord) : FetchEffect :=
  let title := att.title.getD "Web Link"
  let content := "Web Link: " ++ title ++
    "\nURL: " ++ pyStr att.url ++
    "\nMaterial: " ++ att.material_title.getD "" ++
    "\nDescription: " ++ att.material_description.getD "" ++
    "\nDate: " ++ att.creation_time.getD "" ++ "\n"
  let filename := sanitize_filename o.nfkd title.toList 200 ++ ".txt".toList
  let course_name := att.course_name.getD "Uncategorized"
  let path := get_file_path o.nfkd o.ex o.uuid_hex course_name.toList filename
    (some "text/plain") true
  let record : MaterialRecord := {
    title := title
    date_created := att.creation_time
    date_updated := att.update_time
    mime_type := "text/plain"
    course_id := att.course_id
    course_name := course_name
    local_path := path
    remote_id := att.url
    file_size := content.utf8ByteSize
    file_hash := o.sha256_text content
    material_type := "WEB_LINK"
    original_url := att.url
    description := att.material_description.getD "" }
  { events := [ProgressEvent.completion (String.mk filename) o.db_ok
      (if o.db_ok then "" else "Database save failed")],
    new_records := if o.db_ok then [record] else [],
    text_writes := [(path, content)], body_fetches := 0, ret := o.db_ok }

/-- Embedding of `FileDownloader._process_single_attachment`
(downloader.py 403-425): dispatch on `attachment.get('type', 'unknown')`;
a form is re-dispatched as a link pointing at its form URL; every other
kind fails with the "unsupported attachment type" message. -/
def process_single_attachment (o : FetchOracles) (att : Attachment)
    (db : List MaterialRecord) : FetchEffect :=
  if att.att_type.getD "unknown" = "drive_file" then process_drive_file o att db
  else if att.att_type.getD "unknown" = "youtube_video" then
    process_youtube_video o att db
  else if att.att_type.getD "unknown" = "link" then process_link o att db
  else if att.att_type.getD "unknown" = "form" then
    process_link o { att with url := att.form_url, att_type := some "link" } db
  else
    { events := [ProgressEvent.completion (att.title.getD "Unknown") false
        ("Unsupported attachment type: " ++ att.att_type.getD "unknown")],
      new_records := [], body_fetches := 0, ret := false }

/-- The sequential core of `FileDownloader.download_attachments`
(downloader.py 427-458): one fetch per attachment, each reporting its
completion events into the shared tracker and appending its persisted
records.  Because every event increments a single counter, the final
counter values are the same for every interleaving of the concurrent
tasks; the fold realizes one such interleaving. -/
def run_batch (os : Nat → FetchOracles) :
    List Attachment → Nat → DownloadProgress → List MaterialRecord →
    DownloadProgress × List MaterialRecord
  | [], _, p, db => (p, db)
  | a :: as, i, p, db =>
    run_batch os as (i + 1)
      ((process_single_attachment (os i) a db).events.foldl apply_event p)
      (db ++ (process_single_attachment (os i) a db).new_records)

/-- Embedding of `FileDownloader.download_attachments`: fresh tracker
with `total_files = len(attachments)`, then all fetches. -/
def download_attachments (os : Nat → FetchOracles) (atts : List Attachment)
    (db : List MaterialRecord) : DownloadProgress × List MaterialRecord :=
  run_batch os atts 0 (fresh_progress atts.length) db

/-! ## Concrete fetch scenarios -/

/-- The MD5 hex digest of the empty byte string (what Drive reports as
`md5Checksum` for an empty file). -/
def md5_of_empty : String := "d41d8cd98f00b204e9800998ecf8427e"

/-- The SHA-256 hex digest of the empty byte string (what
`hashlib.sha256(b'').hexdigest()` returns). -/
def sha256_of_empty : String :=
  "e3b0c44298fc1c149afbf4c8996fb92427ae41e4649b934ca495991b7852b855"

/-- Drive metadata of an empty file named `notes.bin`. -/
def dedup_metadata : DriveMetadata :=
  { name := some "notes.bin", mimeType := some "application/octet-stream",
    md5Checksum := some md5_of_empty }

/-- Oracles for fetching that empty file on an empty filesystem:
`sha256` is `hashlib.sha256` restricted to the only body fetched (the
empty byte string). -/
def dedup_oracles : FetchOracles :=
  { nfkd := id, ex := fun _ => false, uuid_hex := [],
    metadata := some dedup_metadata, body := some [],
    sha256 := fun _ => sha256_of_empty, sha256_text := fun _ => "",
    db_ok := true }

/-- A drive-file attachment referring to that file. -/
def dedup_attachment : Attachment :=
  { att_type := some "drive_file", drive_file_id := some "id1" }

/-- A counterfactual database row whose stored hash equals the remote
MD5 checksum (what the lookup key would have to match for a hit). -/
def hash_hit_record : MaterialRecord :=
  { title := "old", mime_type := "application/octet-stream",
    course_name := "Uncategorized", local_path := ⟨[], "Other", []⟩,
    file_hash := md5_of_empty, material_type := "ATTACHMENT" }

/-- Oracles whose remote metadata fetch fails (`_get_file_metadata`
returns `None`). -/
def failing_oracles : FetchOracles :=
  { nfkd := id, ex := fun _ => false, uuid_hex := [], metadata := none,
    body := none, sha256 := fun _ => "", sha256_text := fun _ => "",
    db_ok := true }

/-- Oracles for synthesizing a link file on an empty filesystem. -/
def link_oracles : FetchOracles :=
  { nfkd := id, ex := fun _ => false, uuid_hex := [], metadata := none,
    body := none, sha256 := fun _ => "", sha256_text := fun _ => "linkhash",
    db_ok := true }

/-- The link attachment of the end-to-end scenario. -/
def link_attachment : Attachment :=
  { att_type := some "link", url := some "https://example.com/x",
    title := some "Example" }

/-- A supported attachment kind of `_process_single_attachment`. -/
def supported_type (t : String) : Prop :=
  t = "drive_file" ∨ t = "youtube_video" ∨ t = "link" ∨ t = "form"

instance : DecidablePred supported_type := fun t =>
  inferInstanceAs (Decidable (t = "drive_file" ∨ t = "youtube_video" ∨
    t = "link" ∨ t = "form"))

/-! ## Lemmas and claim theorems -/
/-! ### Structural lemmas about the sanitization stages -/

/-- Characters produced by `subUnsafe` are never unsafe. -/
lemma unsafeChar_of_mem_subUnsafe {c : Char} {l : List Char}
    (h : c ∈ subUnsafe l) : unsafeChar c = false := by
  simp only [subUnsafe, List.mem_map] at h
  obtain ⟨a, _, rfl⟩ := h
  by_cases ha : unsafeChar a = true
  · simp [ha]; decide
  · simp only [Bool.not_eq_true] at ha
    simp [ha]

/-- Characters surviving `removeCtrl` are not control characters. -/
lemma ctrlChar_of_mem_removeCtrl {c : Char} {l : List Char}
    (h : c ∈ removeCtrl l) : ctrlChar c = false := by
  have := (List.mem_filter.mp h).2
  simpa using this

lemma mem_of_mem_removeCtrl {c : Char} {l : List Char}
    (h : c ∈ removeCtrl l) : c ∈ l :=
  (List.mem_filter.mp h).1

lemma lstripChars_suffix (p : Char → Bool) (l : List Char) :
    lstripChars p l <:+ l := by
  induction l with
  | nil => simp [lstripChars]
  | cons c cs ih =>
    by_cases h : p c
    · simpa [lstripChars, h] using ih.trans (List.suffix_cons c cs)
    · simp [lstripChars, h]

lemma rstripChars_front (p : Char → Bool) (l : List Char) :
    rstripChars p l <+: l := by
  have h := lstripChars_suffix p l.reverse
  have h2 := List.reverse_prefix.mpr h
  simpa [rstripChars] using h2

lemma mem_of_mem_lstripChars {p : Char → Bool} {c : Char} {l : List Char}
    (h : c ∈ lstripChars p l) : c ∈ l :=
  (lstripChars_suffix p l).sublist.mem h

lemma mem_of_mem_rstripChars {p : Char → Bool} {c : Char} {l : List Char}
    (h : c ∈ rstripChars p l) : c ∈ l :=
  (rstripChars_front p l).sublist.mem h

lemma mem_of_mem_stripChars {p : Char → Bool} {c : Char} {l : List Char}
    (h : c ∈ stripChars p l) : c ∈ l :=
  mem_of_mem_lstripChars (mem_of_mem_rstripChars h)

lemma rstripChars_length_le (p : Char → Bool) (l : List Char) :
    (rstripChars p l).length ≤ l.length :=
  (rstripChars_front p l).length_le

/-- Every character of `collapseRuns l` is either the replacement
underscore or a non-collapsible character of `l`. -/
lemma mem_collapseRuns {c : Char} : ∀ {l : List Char}, c ∈ collapseRuns l →
    c = '_' ∨ (c ∈ l ∧ collapseTarget c = false) := by
  intro l
  induction l with
  | nil => simp [collapseRuns]
  | cons a cs ih =>
    intro h
    rw [collapseRuns] at h
    split at h
    · split at h
      · rcases ih h with h' | h'
        · exact Or.inl h'
        · exact Or.inr ⟨List.mem_cons_of_mem a h'.1, h'.2⟩
      · rcases List.mem_cons.mp h with rfl | h2
        · exact Or.inl rfl
        · rcases ih h2 with h' | h'
          · exact Or.inl h'
          · exact Or.inr ⟨List.mem_cons_of_mem a h'.1, h'.2⟩
    · next hta =>
      rcases List.mem_cons.mp h with rfl | h2
      · exact Or.inr ⟨List.mem_cons_self _ _, by simpa using hta⟩
      · rcases ih h2 with h' | h'
        · exact Or.inl h'
        · exact Or.inr ⟨List.mem_cons_of_mem a h'.1, h'.2⟩

lemma collapseRuns_chain : ∀ l : List Char, List.Chain' noUU (collapseRuns l) := by
  intro l
  induction l with
  | nil => simp [collapseRuns]
  | cons a cs ih =>
    rw [collapseRuns]
    split
    · split
      · exact ih
      · next hh =>
        refine List.chain'_cons'.mpr ⟨fun y hy huu => ?_, ih⟩
        rw [Option.mem_def] at hy
        exact hh (by rw [hy, huu.2])
    · next hta =>
      refine List.chain'_cons'.mpr ⟨fun y _ huu => ?_, ih⟩
      rw [huu.1] at hta
      simp [collapseTarget] at hta

lemma lstripChars_head {p : Char → Bool} : ∀ {l : List Char} {d : Char},
    (lstripChars p l).head? = some d → p d = false := by
  intro l
  induction l with
  | nil => intro d h; simp [lstripChars] at h
  | cons c cs ih =>
    intro d h
    rw [lstripChars] at h
    split at h
    · exact ih h
    · next hc =>
      simp only [List.head?_cons, Option.some.injEq] at h
      rw [← h]
      simpa using hc

lemma rstripChars_getLast {p : Char → Bool} {l : List Char} {d : Char}
    (h : (rstripChars p l).getLast? = some d) : p d = false := by
  rw [rstripChars, List.getLast?_reverse] at h
  exact lstripChars_head h

lemma stripChars_getLast {p : Char → Bool} {l : List Char} {d : Char}
    (h : (stripChars p l).getLast? = some d) : p d = false :=
  rstripChars_getLast h

lemma collapseRuns_ne_nil : ∀ {l : List Char}, l ≠ [] → collapseRuns l ≠ [] := by
  intro l h
  cases l with
  | nil => exact absurd rfl h
  | cons c cs =>
    rw [collapseRuns]
    split
    · split
      · next hh =>
        intro hnil
        rw [hnil] at hh
        simp at hh
      · simp
    · simp

lemma getLast?_cons_of_ne_nil (a : Char) {l : List Char} (h : l ≠ []) :
    (a :: l).getLast? = l.getLast? := by
  cases l with
  | nil => exact absurd rfl h
  | cons b t => exact List.getLast?_cons_cons

/-- The last character of a collapsed string is the underscore or the
last character of the input (necessarily non-collapsible). -/
lemma collapseRuns_getLast : ∀ {l : List Char} {d : Char},
    (collapseRuns l).getLast? = some d →
    d = '_' ∨ (l.getLast? = some d ∧ collapseTarget d = false) := by
  intro l
  induction l with
  | nil => intro d h; simp [collapseRuns] at h
  | cons c cs ih =>
    intro d h
    rw [collapseRuns] at h
    by_cases hcs : cs = []
    · subst hcs
      rw [show collapseRuns [] = [] from rfl] at h
      split at h
      · split at h
        · next hh => simp at hh
        · simp only [List.getLast?_singleton, Option.some.injEq] at h
          exact Or.inl h.symm
      · next hta =>
        simp only [List.getLast?_singleton, Option.some.injEq] at h
        refine Or.inr ⟨by rw [List.getLast?_singleton, h], ?_⟩
        rw [← h]
        simpa using hta
    · have hrest : collapseRuns cs ≠ [] := collapseRuns_ne_nil hcs
      split at h
      · split at h
        · rcases ih h with h' | h'
          · exact Or.inl h'
          · exact Or.inr ⟨by rw [getLast?_cons_of_ne_nil c hcs]; exact h'.1, h'.2⟩
        · rw [getLast?_cons_of_ne_nil '_' hrest] at h
          rcases ih h with h' | h'
          · exact Or.inl h'
          · exact Or.inr ⟨by rw [getLast?_cons_of_ne_nil c hcs]; exact h'.1, h'.2⟩
      · rw [getLast?_cons_of_ne_nil c hrest] at h
        rcases ih h with h' | h'
        · exact Or.inl h'
        · exact Or.inr ⟨by rw [getLast?_cons_of_ne_nil c hcs]; exact h'.1, h'.2⟩

/-- Characters of the cleaned-up string (steps 1-5 of
`sanitize_filename`) are neither unsafe, nor control, nor whitespace. -/
lemma preClean_chars {nfkd : List Char → List Char} {f : List Char} :
    ∀ c ∈ preClean nfkd f,
      unsafeChar c = false ∧ ctrlChar c = false ∧ pySpaceChar c = false := by
  intro c hc
  rcases mem_collapseRuns hc with rfl | ⟨hmem, hta⟩
  · exact ⟨by decide, by decide, by decide⟩
  · have h1 : c ∈ removeCtrl (subUnsafe (nfkd f)) := mem_of_mem_stripChars hmem
    have h2 : c ∈ subUnsafe (nfkd f) := mem_of_mem_removeCtrl h1
    refine ⟨unsafeChar_of_mem_subUnsafe h2, ctrlChar_of_mem_removeCtrl h1, ?_⟩
    simp only [collapseTarget, Bool.or_eq_false_iff] at hta
    exact hta.1

/-- The cleaned-up string never ends with a dot. -/
lemma preClean_getLast_ne_dot {nfkd : List Char → List Char} {f : List Char} :
    (preClean nfkd f).getLast? ≠ some '.' := by
  intro h
  rcases collapseRuns_getLast h with h' | h'
  · exact absurd h' (by decide)
  · have := stripChars_getLast h'.1
    simp [dotSpace] at this

/-- The chain invariant for the cleaned-up string. -/
lemma preClean_chain (nfkd : List Char → List Char) (f : List Char) :
    List.Chain' noUU (preClean nfkd f) :=
  collapseRuns_chain _

lemma dropWhile_head_false {p : Char → Bool} : ∀ {l : List Char} {a : Char}
    {t : List Char}, l.dropWhile p = a :: t → p a = false := by
  intro l
  induction l with
  | nil => intro a t h; simp at h
  | cons c cs ih =>
    intro a t h
    rw [List.dropWhile_cons] at h
    split at h
    · exact ih h
    · next hc =>
      cases h
      simpa using hc

/-- `splitext` splits its argument: name and extension concatenate back
to the input. -/
lemma splitext_append (g : List Char) : (splitext g).1 ++ (splitext g).2 = g := by
  rw [splitext]
  split
  · next hcond =>
    obtain ⟨hd, t, h⟩ := List.exists_cons_of_ne_nil hcond.1
    have hdot : hd = '.' := by
      have := dropWhile_head_false h
      simpa using this
    have htw := List.takeWhile_append_dropWhile (fun c => !decide (c = '.')) g.reverse
    rw [h, hdot] at htw
    have hg := congrArg List.reverse htw
    rw [List.reverse_reverse, List.reverse_append] at hg
    rw [h, hdot]
    simp only [List.tail_cons]
    rw [List.reverse_cons, List.append_assoc, List.singleton_append] at hg
    exact hg
  · simp

/-- The extension returned by `splitext` is empty or a dot followed by
dot-free characters. -/
lemma splitext_snd_cases (g : List Char) : (splitext g).2 = [] ∨
    ∃ t, (splitext g).2 = '.' :: t ∧ ∀ c ∈ t, c ≠ '.' := by
  rw [splitext]
  split
  · refine Or.inr ⟨(g.reverse.takeWhile fun c => !decide (c = '.')).reverse, rfl, ?_⟩
    intro c hc
    have := List.mem_takeWhile_imp (List.mem_reverse.mp hc)
    simpa using this
  · simp

lemma pyTakeFront_eq_take (l : List Char) (m : Int) : ∃ k, pyTakeFront l m = l.take k := by
  rw [pyTakeFront]
  split
  · exact ⟨m.toNat, rfl⟩
  · exact ⟨((l.length : Int) + m).toNat, rfl⟩

/-- The three character-level and order-level invariants hold for the
length-limited string `truncateName (preClean nfkd f) max_length`. -/
lemma truncateName_invariants (nfkd : List Char → List Char) (f : List Char)
    (max_length : Nat) :
    (∀ c ∈ truncateName (preClean nfkd f) max_length,
        unsafeChar c = false ∧ ctrlChar c = false ∧ pySpaceChar c = false) ∧
    List.Chain' noUU (truncateName (preClean nfkd f) max_length) ∧
    (truncateName (preClean nfkd f) max_length).getLast? ≠ some '.' := by
  rw [truncateName]
  split
  · have happ := splitext_append (preClean nfkd f)
    obtain ⟨k, hk⟩ := pyTakeFront_eq_take (splitext (preClean nfkd f)).1
        ((max_length : Int) - ((splitext (preClean nfkd f)).2.length : Int))
    obtain ⟨t0, ht0⟩ := rstripChars_front dotSpaceUnderscore
        (pyTakeFront (splitext (preClean nfkd f)).1
          ((max_length : Int) - ((splitext (preClean nfkd f)).2.length : Int)))
    have hgchain : List.Chain' noUU
        ((splitext (preClean nfkd f)).1 ++ (splitext (preClean nfkd f)).2) := by
      rw [happ]; exact preClean_chain nfkd f
    obtain ⟨hcn, hce, _⟩ := List.chain'_append.mp hgchain
    have hmemleft : ∀ c ∈ rstripChars dotSpaceUnderscore
        (pyTakeFront (splitext (preClean nfkd f)).1
          ((max_length : Int) - ((splitext (preClean nfkd f)).2.length : Int))),
        c ∈ preClean nfkd f := by
      intro c hc
      have h1 := mem_of_mem_rstripChars hc
      rw [hk] at h1
      have h2 := List.mem_of_mem_take h1
      rw [← happ]
      exact List.mem_append_left _ h2
    have hmemext : ∀ c ∈ (splitext (preClean nfkd f)).2, c ∈ preClean nfkd f := by
      intro c hc
      rw [← happ]
      exact List.mem_append_right _ hc
    refine ⟨?_, ?_, ?_⟩
    · intro c hc
      rcases List.mem_append.mp hc with hc' | hc'
      · exact preClean_chars c (hmemleft c hc')
      · exact preClean_chars c (hmemext c hc')
    · refine List.chain'_append.mpr ⟨?_, hce, ?_⟩
      · have htake : List.Chain' noUU ((splitext (preClean nfkd f)).1.take k) := hcn.take k
        rw [← hk] at htake
        rw [← ht0] at htake
        exact (List.chain'_append.mp htake).1
      · intro x _ y hy
        rcases splitext_snd_cases (preClean nfkd f) with hext | ⟨t, hext, _⟩
        · rw [hext] at hy
          simp at hy
        · rw [hext] at hy
          simp only [List.head?_cons, Option.mem_def, Option.some.injEq] at hy
          intro huu
          rw [← hy] at huu
          exact absurd huu.2 (by decide)
    · rcases splitext_snd_cases (preClean nfkd f) with hext | ⟨t, hext, ht⟩
      · rw [hext, List.append_nil]
        intro h
        have := rstripChars_getLast h
        simp [dotSpaceUnderscore] at this
      · rw [hext]
        rw [List.getLast?_append_of_ne_nil _ (by simp)]
        cases t with
        | nil =>
          exfalso
          apply @preClean_getLast_ne_dot nfkd f
          rw [← happ, hext]
          rw [List.getLast?_append_of_ne_nil _ (by simp)]
          rfl
        | cons b tb =>
          rw [getLast?_cons_of_ne_nil '.' (by simp)]
          intro h
          have hmem := List.mem_of_mem_getLast? h
          exact ht '.' hmem rfl
  · exact ⟨preClean_chars, preClean_chain nfkd f, preClean_getLast_ne_dot⟩

/-- Unconditional invariants of `sanitize_filename`: no unsafe, control
or whitespace characters, no two adjacent underscores, non-empty, and
never ending in a dot. -/
lemma sanitize_filename_invariants (nfkd : List Char → List Char) (f : List Char)
    (max_length : Nat) :
    (∀ c ∈ sanitize_filename nfkd f max_length,
        unsafeChar c = false ∧ ctrlChar c = false ∧ pySpaceChar c = false) ∧
    List.Chain' noUU (sanitize_filename nfkd f max_length) ∧
    sanitize_filename nfkd f max_length ≠ [] ∧
    (sanitize_filename nfkd f max_length).getLast? ≠ some '.' := by
  obtain ⟨hmem, hchain, hlast⟩ := truncateName_invariants nfkd f max_length
  rw [sanitize_filename, finalizeName]
  split
  · refine ⟨by decide, ?_, by decide, by decide⟩
    show List.Chain' noUU ['u', 'n', 't', 'i', 't', 'l', 'e', 'd']
    simp only [List.chain'_cons]
    exact ⟨by decide, by decide, by decide, by decide, by decide, by decide,
      by decide, List.chain'_singleton 'd'⟩
  · next hcond =>
    exact ⟨hmem, hchain, fun h => hcond (Or.inl h), hlast⟩

/-! ### Fixed points of the sanitization stages -/

lemma subUnsafe_eq_self {l : List Char} (h : ∀ c ∈ l, unsafeChar c = false) :
    subUnsafe l = l := by
  induction l with
  | nil => rfl
  | cons c cs ih =>
    simp only [subUnsafe, List.map_cons]
    rw [h c (List.mem_cons_self c cs)]
    simp only [Bool.false_eq_true, if_false, List.cons.injEq, true_and]
    exact ih fun d hd => h d (List.mem_cons_of_mem c hd)

lemma removeCtrl_eq_self {l : List Char} (h : ∀ c ∈ l, ctrlChar c = false) :
    removeCtrl l = l :=
  List.filter_eq_self.mpr fun c hc => by rw [h c hc]; rfl

lemma lstripChars_eq_self {p : Char → Bool} {l : List Char}
    (h : ∀ d, l.head? = some d → p d = false) : lstripChars p l = l := by
  cases l with
  | nil => rfl
  | cons c cs =>
    rw [lstripChars]
    rw [h c rfl]
    simp

lemma rstripChars_eq_self {p : Char → Bool} {l : List Char}
    (h : ∀ d, l.getLast? = some d → p d = false) : rstripChars p l = l := by
  rw [rstripChars, lstripChars_eq_self, List.reverse_reverse]
  intro d hd
  apply h
  rw [← List.head?_reverse]
  exact hd

lemma collapseRuns_eq_self {l : List Char} (hsp : ∀ c ∈ l, pySpaceChar c = false)
    (hch : List.Chain' noUU l) : collapseRuns l = l := by
  induction l with
  | nil => rfl
  | cons c cs ih =>
    have ihcs : collapseRuns cs = cs :=
      ih (fun d hd => hsp d (List.mem_cons_of_mem c hd)) (List.chain'_cons'.mp hch).2
    rw [collapseRuns, ihcs]
    by_cases hc : c = '_'
    · subst hc
      have hhd : cs.head? ≠ some '_' := fun heq =>
        ((List.chain'_cons'.mp hch).1 '_' heq) ⟨rfl, rfl⟩
      rw [if_pos (by decide), if_neg hhd]
    · have htc : collapseTarget c = false := by
        simp only [collapseTarget, Bool.or_eq_false_iff]
        exact ⟨hsp c (List.mem_cons_self c cs), by simpa using hc⟩
      rw [htc]
      simp

lemma truncateName_eq_self {l : List Char} {max_length : Nat}
    (hlen : l.length ≤ max_length) : truncateName l max_length = l := by
  rw [truncateName, if_neg]
  omega

lemma finalizeName_eq_self {l : List Char} (h1 : l ≠ [])
    (h2 : l.head? ≠ some '.') : finalizeName l = l := by
  rw [finalizeName, if_neg]
  rintro (h | h | h)
  · exact h1 h
  · exact h2 (by rw [h]; rfl)
  · exact h2 (by rw [h]; rfl)

/-- C10 (corrected): sanitization is idempotent for every output that
the NFKD oracle fixes, fits in `max_length`, and does not start with a
dot; the counterexample `sanitize_filename_not_idempotent` shows the
unconditional claim fails when truncation leaves a leading dot. -/
theorem sanitize_filename_idempotent_when_stable (nfkd : List Char → List Char)
    (f : List Char) (max_length : Nat)
    (hn : nfkd (sanitize_filename nfkd f max_length) =
      sanitize_filename nfkd f max_length)
    (hlen : (sanitize_filename nfkd f max_length).length ≤ max_length)
    (hhead : (sanitize_filename nfkd f max_length).head? ≠ some '.') :
    sanitize_filename nfkd (sanitize_filename nfkd f max_length) max_length =
      sanitize_filename nfkd f max_length := by
  obtain ⟨hmem, hchain, hne, hlast⟩ := sanitize_filename_invariants nfkd f max_length
  set s := sanitize_filename nfkd f max_length with hs
  have h1 : subUnsafe (nfkd s) = s := by
    rw [hn]
    exact subUnsafe_eq_self fun c hc => (hmem c hc).1
  have h2 : removeCtrl s = s := removeCtrl_eq_self fun c hc => (hmem c hc).2.1
  have hnospace : ∀ c ∈ s, c ≠ ' ' := by
    intro c hc heq
    have := (hmem c hc).2.2
    rw [heq] at this
    exact absurd this (by decide)
  have h3 : stripChars dotSpace s = s := by
    rw [stripChars, lstripChars_eq_self, rstripChars_eq_self]
    · intro d hd
      have hdm := List.mem_of_mem_getLast? hd
      simp only [dotSpace, decide_eq_false_iff_not, not_or]
      exact ⟨fun hdot => hlast (by rw [← hdot]; exact hd), hnospace d hdm⟩
    · intro d hd
      have hdm := List.mem_of_mem_head? hd
      simp only [dotSpace, decide_eq_false_iff_not, not_or]
      exact ⟨fun hdot => hhead (by rw [← hdot]; exact hd), hnospace d hdm⟩
  have h4 : collapseRuns s = s :=
    collapseRuns_eq_self (fun c hc => (hmem c hc).2.2) hchain
  have h5 : preClean nfkd s = s := by
    rw [preClean, h1, h2, h3, h4]
  calc sanitize_filename nfkd s max_length
      = finalizeName (truncateName (preClean nfkd s) max_length) := rfl
    _ = finalizeName (truncateName s max_length) := by rw [h5]
    _ = finalizeName s := by rw [truncateName_eq_self hlen]
    _ = s := finalizeName_eq_self hne hhead

/-- C10 witness: a concrete run of the amended idempotence theorem on an
ASCII filename (NFKD is the identity there). -/
theorem sanitize_filename_idempotent_witness :
    (id (sanitize_filename id "My Report.pdf".toList 200) =
        sanitize_filename id "My Report.pdf".toList 200 ∧
      (sanitize_filename id "My Report.pdf".toList 200).length ≤ 200 ∧
      (sanitize_filename id "My Report.pdf".toList 200).head? ≠ some '.') ∧
    sanitize_filename id (sanitize_filename id "My Report.pdf".toList 200) 200 =
      sanitize_filename id "My Report.pdf".toList 200 :=
  ⟨⟨rfl, by decide, by decide⟩,
    sanitize_filename_idempotent_when_stable id "My Report.pdf".toList 200 rfl
      (by decide) (by decide)⟩

/-- C10 counterexample: `sanitize_filename` is not idempotent as claimed.
For `f = "ab.cdef"` and `max_length = 5` the first pass truncates the
name part away and returns `".cdef"`; the second pass strips the now
leading dot and returns `"cdef"`. -/
theorem sanitize_filename_not_idempotent :
    sanitize_filename id (sanitize_filename id "ab.cdef".toList 5) 5 ≠
      sanitize_filename id "ab.cdef".toList 5 := by decide

/-- C5 (corrected): `sanitize_filename` never returns unsafe or control
characters and never returns the empty string; the length bound holds
provided `max_length` accommodates the `untitled` fallback
(`8 ≤ max_length`) and the extension kept by the truncation step is not
itself longer than `max_length`.  The counterexample
`sanitize_filename_length_overflow` shows the unconditional length bound
fails. -/
theorem sanitize_filename_safe_bounded (nfkd : List Char → List Char)
    (f : List Char) (max_length : Nat) (h8 : 8 ≤ max_length)
    (hext : (splitext (preClean nfkd f)).2.length ≤ max_length) :
    (∀ c ∈ sanitize_filename nfkd f max_length,
        unsafeChar c = false ∧ ctrlChar c = false) ∧
    sanitize_filename nfkd f max_length ≠ [] ∧
    (sanitize_filename nfkd f max_length).length ≤ max_length := by
  obtain ⟨hmem, _, hne, _⟩ := sanitize_filename_invariants nfkd f max_length
  refine ⟨fun c hc => ⟨(hmem c hc).1, (hmem c hc).2.1⟩, hne, ?_⟩
  rw [sanitize_filename, finalizeName]
  split
  · have : ("untitled".toList).length = 8 := by decide
    omega
  · rw [truncateName]
    split
    · rw [List.length_append]
      have hm : (0 : Int) ≤ (max_length : Int) -
          ((splitext (preClean nfkd f)).2.length : Int) := by omega
      have h1 := rstripChars_length_le dotSpaceUnderscore
        (pyTakeFront (splitext (preClean nfkd f)).1
          ((max_length : Int) - ((splitext (preClean nfkd f)).2.length : Int)))
      have h2 : (pyTakeFront (splitext (preClean nfkd f)).1
          ((max_length : Int) - ((splitext (preClean nfkd f)).2.length : Int))).length ≤
          max_length - (splitext (preClean nfkd f)).2.length := by
        rw [pyTakeFront, if_pos hm]
        have h3 := List.length_take_le
          (((max_length : Int) - ((splitext (preClean nfkd f)).2.length : Int)).toNat)
          (splitext (preClean nfkd f)).1
        omega
      omega
    · next hle =>
      omega

/-- C5 witness: a concrete run of the amended postcondition theorem on a
well-behaved filename at the default maximum length. -/
theorem sanitize_filename_safe_bounded_witness :
    (8 ≤ 200 ∧ (splitext (preClean id "Report Final.pdf".toList)).2.length ≤ 200) ∧
    ((∀ c ∈ sanitize_filename id "Report Final.pdf".toList 200,
        unsafeChar c = false ∧ ctrlChar c = false) ∧
      sanitize_filename id "Report Final.pdf".toList 200 ≠ [] ∧
      (sanitize_filename id "Report Final.pdf".toList 200).length ≤ 200) :=
  ⟨⟨by decide, by decide⟩,
    sanitize_filename_safe_bounded id "Report Final.pdf".toList 200 (by decide)
      (by decide)⟩

/-- C5 counterexample: the claimed length bound fails when the extension
computed at the truncation step is longer than `max_length`: Python's
negative-slice arithmetic empties the name part and the whole extension
is kept, so `sanitize_filename "a.bcdefghijklm" 10 = ".bcdefghijklm"` has
13 characters. -/
theorem sanitize_filename_length_overflow :
    ¬ ((sanitize_filename id "a.bcdefghijklm".toList 10).length ≤ 10) := by decide

lemma unique_from_finds {ex : List Char → Bool} {stem ext uuid_hex : List Char} :
    ∀ (fuel c k : Nat), c ≤ k → k < c + fuel →
    ex (candidate_name stem ext k) = false →
    (∀ j, c ≤ j → j < k → ex (candidate_name stem ext j) = true) →
    unique_from ex stem ext uuid_hex c fuel = candidate_name stem ext k := by
  intro fuel
  induction fuel with
  | zero => intro c k h1 h2 _ _; omega
  | succ n ih =>
    intro c k h1 h2 hfree htaken
    rw [unique_from]
    by_cases hc : ex (candidate_name stem ext c) = false
    · rw [if_pos hc]
      have hkc : k = c := by
        by_contra hne
        have hlt : c < k := lt_of_le_of_ne h1 (Ne.symm hne)
        have := htaken c le_rfl hlt
        rw [hc] at this
        cases this
      rw [hkc]
    · rw [if_neg hc]
      have hck : c ≠ k := fun h => hc (by rw [h]; exact hfree)
      exact ih (c + 1) k (by omega) (by omega) hfree
        fun j hj1 hj2 => htaken j (by omega) hj2

lemma unique_from_exhausted {stem ext uuid_hex : List Char} : ∀ (fuel c : Nat),
    unique_from (fun _ => true) stem ext uuid_hex c fuel =
      stem ++ ('_' :: uuid_hex) ++ ext := by
  intro fuel
  induction fuel with
  | zero => intro c; rfl
  | succ n ih =>
    intro c
    rw [unique_from, if_neg (by simp)]
    exact ih (c + 1)

/-- C6 (corrected): whenever some numeric candidate among `_1` … `_9999`
does not yet exist (and the base name is taken), the resolver returns the
candidate with the smallest such counter, and the returned path does not
name an existing file; if the base name is free it is returned as is.
The counterexample `ensure_unique_filename_collision` shows the claimed
invariant fails on the random-suffix fallback path, which is returned
without an existence check. -/
theorem ensure_unique_filename_no_collision (ex : List Char → Bool)
    (stem ext uuid_hex : List Char) (k : Nat) (hk1 : 1 ≤ k) (hk2 : k ≤ 9999)
    (hfree : ex (candidate_name stem ext k) = false)
    (hmin : ∀ j, 1 ≤ j → j < k → ex (candidate_name stem ext j) = true) :
    (ex (stem ++ ext) = false →
      ensure_unique_filename ex stem ext uuid_hex = stem ++ ext) ∧
    (ex (stem ++ ext) = true →
      ensure_unique_filename ex stem ext uuid_hex = candidate_name stem ext k) ∧
    ex (ensure_unique_filename ex stem ext uuid_hex) = false := by
  rw [ensure_unique_filename]
  by_cases hb : ex (stem ++ ext) = false
  · rw [if_pos hb]
    refine ⟨fun _ => rfl, fun h => ?_, hb⟩
    rw [hb] at h
    simp at h
  · rw [if_neg hb]
    have h9 : unique_from ex stem ext uuid_hex 1 9999 = candidate_name stem ext k :=
      unique_from_finds 9999 1 k hk1 (by omega) hfree fun j hj1 hj2 => hmin j hj1 hj2
    exact ⟨fun h => absurd h hb, fun _ => h9, by rw [h9]; exact hfree⟩

/-- C6 witness: with `a.txt` and `a_1.txt` already on disk, resolving
`a.txt` returns `a_2.txt`, a path that does not exist — so repeated
resolution with a write after each step yields pairwise distinct paths
with suffixes `_1`, `_2`, … -/
theorem ensure_unique_filename_no_collision_witness :
    ensure_unique_filename
        (fun s => decide (s = "a.txt".toList ∨ s = "a_1.txt".toList))
        "a".toList ".txt".toList "deadbeef".toList = "a_2.txt".toList ∧
    (fun s => decide (s = "a.txt".toList ∨ s = "a_1.txt".toList))
        (ensure_unique_filename
          (fun s => decide (s = "a.txt".toList ∨ s = "a_1.txt".toList))
          "a".toList ".txt".toList "deadbeef".toList) = false := by
  have h := ensure_unique_filename_no_collision
    (fun s => decide (s = "a.txt".toList ∨ s = "a_1.txt".toList))
    "a".toList ".txt".toList "deadbeef".toList 2 (by decide) (by decide)
    (by decide) ?hmin
  case hmin =>
    intro j hj1 hj2
    interval_cases j
    decide
  refine ⟨?_, h.2.2⟩
  rw [h.2.1 (by decide)]
  decide

/-- C6 counterexample: on a directory where the base name, every numeric
candidate and even the random-suffixed name already exist (existence
oracle constantly true), the resolver returns the random-suffix fallback
without checking it, so the returned path names an existing file —
refuting the claimed invariant. -/
theorem ensure_unique_filename_collision :
    ensure_unique_filename (fun _ => true) "a".toList ".txt".toList
        "deadbeef".toList = "a_deadbeef.txt".toList ∧
    (fun _ : List Char => true) (ensure_unique_filename (fun _ => true)
        "a".toList ".txt".toList "deadbeef".toList) = true := by
  constructor
  · rw [ensure_unique_filename, if_neg (by simp), unique_from_exhausted]
    decide
  · rfl

/-! ## C3 and C9: snapshot correctness and the concurrency bound -/

lemma apply_event_total (p : DownloadProgress) (e : ProgressEvent) :
    (apply_event p e).total_files = p.total_files := by
  cases e with
  | completion f s err => cases s <;> simp [apply_event, complete_file]
  | duplicate f => simp [apply_event, skip_duplicate]

lemma run_events_total (n : Nat) (ops : List ProgressEvent) :
    (run_events n ops).total_files = n := by
  suffices h : ∀ p : DownloadProgress, (ops.foldl apply_event p).total_files =
      p.total_files by
    simpa [run_events, fresh_progress] using h (fresh_progress n)
  induction ops with
  | nil => intro p; rfl
  | cons e es ih =>
    intro p
    rw [List.foldl_cons, ih]
    exact apply_event_total p e

/-- C3 (confirmed): for every interleaving of `complete_file` and
`skip_duplicate` calls, the snapshot reports overall progress 0 when the
batch is empty, exactly 100 when the three counters sum to the (positive)
total, and `is_complete` holds iff the counters sum to at least the
total. -/
theorem snapshot_overall_progress_correct (ops : List ProgressEvent) (total : Nat) :
    (total = 0 → get_overall_progress (run_events total ops) = 0) ∧
    ((run_events total ops).completed_files + (run_events total ops).failed_files +
        (run_events total ops).duplicates_skipped = total → 0 < total →
      get_overall_progress (run_events total ops) = 100) ∧
    (is_complete (run_events total ops) = true ↔
      (run_events total ops).completed_files + (run_events total ops).failed_files +
        (run_events total ops).duplicates_skipped ≥ total) := by
  have ht := run_events_total total ops
  refine ⟨?_, ?_, ?_⟩
  · intro h0
    rw [get_overall_progress, if_pos (by rw [ht, h0])]
  · intro hsum hpos
    rw [get_overall_progress, if_neg (by rw [ht]; omega), ht]
    have htotQ : (total : ℚ) ≠ 0 := Nat.cast_ne_zero.mpr (by omega)
    have hnum : ((run_events total ops).completed_files : ℚ) +
        (run_events total ops).failed_files +
        (run_events total ops).duplicates_skipped = (total : ℚ) := by
      exact_mod_cast congrArg (Nat.cast : Nat → ℚ) hsum
    rw [hnum, div_self htotQ, one_mul]
  · simp [is_complete, ht]

/-- C3 witness: a batch of 2 with one duplicate skip and one successful
completion reaches exactly 100 percent and is complete. -/
theorem snapshot_overall_progress_witness :
    get_overall_progress (run_events 2 [ProgressEvent.duplicate "a",
      ProgressEvent.completion "b" true ""]) = 100 ∧
    is_complete (run_events 2 [ProgressEvent.duplicate "a",
      ProgressEvent.completion "b" true ""]) = true := by
  have h := snapshot_overall_progress_correct
    [ProgressEvent.duplicate "a", ProgressEvent.completion "b" true ""] 2
  exact ⟨h.2.1 (by decide) (by decide), h.2.2.mpr (by decide)⟩

/-- C9 (confirmed): in every reachable state of the bounded-concurrency
batch, the number of in-flight fetch invocations (semaphore permits held)
never exceeds `max_concurrent`, for every interleaving of task starts,
suspensions and completions. -/
theorem semaphore_concurrency_bound (max_concurrent n : Nat)
    (s : OrchestratorState) (h : orchestrator_reachable max_concurrent n s) :
    s.active ≤ max_concurrent := by
  induction h with
  | init => simp
  | step hr hstep ih =>
    cases hstep with
    | start p a f hp ha =>
      simp only [OrchestratorState.active] at *
      omega
    | finish p a f ha =>
      simp only [OrchestratorState.active] at *
      omega

/-- C9 witness: with bound 1 and a batch of 3 the state after starting
one task is reachable and respects the bound. -/
theorem semaphore_concurrency_bound_witness :
    (OrchestratorState.mk 2 1 0).active ≤ 1 :=
  semaphore_concurrency_bound 1 3 ⟨2, 1, 0⟩
    (orchestrator_reachable.step orchestrator_reachable.init
      (orchestrator_step.start 3 0 0 (by decide) (by decide)))

/-- C1 (code bug): deduplication is defeated by a hash-key mismatch.
The fetcher persists `file_hash = sha256(body)` but looks duplicates up
by the remote MD5 checksum, so a record written by the fetcher can never
be a hit for an identical later attachment: the second fetch of the very
same empty file performs a full body download again, fires a success
completion instead of `skip_duplicate`, and persists a second record.
The final conjuncts show the skip path itself works as specified when
the stored hash does equal the lookup key — the bug is purely the
MD5/SHA-256 key mismatch. -/
theorem dedup_defeated_by_hash_key_mismatch :
    (process_single_attachment dedup_oracles dedup_attachment []).ret = true ∧
    (process_single_attachment dedup_oracles dedup_attachment []).body_fetches = 1 ∧
    (process_single_attachment dedup_oracles dedup_attachment []).new_records.map
        (fun r => r.file_hash) = [sha256_of_empty] ∧
    check_duplicate_by_hash md5_of_empty
        (process_single_attachment dedup_oracles dedup_attachment []).new_records =
      none ∧
    (process_single_attachment dedup_oracles dedup_attachment
        (process_single_attachment dedup_oracles
          dedup_attachment []).new_records).events =
      [ProgressEvent.completion "notes.bin" true ""] ∧
    (process_single_attachment dedup_oracles dedup_attachment
        (process_single_attachment dedup_oracles
          dedup_attachment []).new_records).body_fetches = 1 ∧
    (process_single_attachment dedup_oracles dedup_attachment
        (process_single_attachment dedup_oracles
          dedup_attachment []).new_records).new_records.length = 1 ∧
    (process_single_attachment dedup_oracles dedup_attachment
        [hash_hit_record]).events = [ProgressEvent.duplicate "notes.bin"] ∧
    (process_single_attachment dedup_oracles dedup_attachment
        [hash_hit_record]).body_fetches = 0 ∧
    (process_single_attachment dedup_oracles dedup_attachment
        [hash_hit_record]).ret = true := by
  decide

/-- C2 (code bug): the early-return paths of `_process_drive_file` fire
no completion event at all.  A drive-file attachment with a missing
`drive_file_id`, and one whose metadata fetch fails, both return `False`
without any `complete_file` or `skip_duplicate` call — zero events
instead of the exactly-once the claim requires, so `failed_files` is
never incremented and the tracker can never report completion for such a
batch. -/
theorem drive_fetch_early_returns_skip_accounting :
    (process_single_attachment failing_oracles
        { att_type := some "drive_file" } []).events.length = 0 ∧
    (process_single_attachment failing_oracles
        { att_type := some "drive_file" } []).ret = false ∧
    (process_single_attachment failing_oracles
        { att_type := some "drive_file", drive_file_id := some "f1" }
        []).events.length = 0 ∧
    (process_single_attachment failing_oracles
        { att_type := some "drive_file", drive_file_id := some "f1" }
        []).ret = false := by
  decide

/-- C7 counterexample: the synthesized link file is categorized under
`Documents`, not `Web` — `.txt` belongs to the `Documents` extension
bucket of `FILE_CATEGORIES`, while `Web` holds only markup/script
extensions. -/
theorem link_file_not_in_web_category :
    (process_single_attachment link_oracles link_attachment []).text_writes.map
        (fun w => w.1.category) = ["Documents"] ∧
    get_file_category "Example.txt".toList (some "text/plain") ≠ "Web" := by
  constructor
  · decide
  · decide

/-- C7 (corrected): the end-to-end link scenario, with the category
corrected from `Web` to `Documents`: the fetch writes one text file at
`Uncategorized/Documents/Example.txt` whose content contains the literal
URL, persists one MaterialRecord with `material_type = "WEB_LINK"` and
`original_url = "https://example.com/x"`, and completes successfully. -/
theorem link_end_to_end :
    (process_single_attachment link_oracles link_attachment []).text_writes.map
        (fun w => w.1) =
      [⟨"Uncategorized".toList, "Documents", "Example.txt".toList⟩] ∧
    (∃ pre suf, (process_single_attachment link_oracles
        link_attachment []).text_writes.map (fun w => w.2) =
      [pre ++ "https://example.com/x" ++ suf]) ∧
    (process_single_attachment link_oracles link_attachment []).new_records.map
        (fun r => (r.material_type, r.original_url, r.mime_type, r.title)) =
      [("WEB_LINK", some "https://example.com/x", "text/plain", "Example")] ∧
    (process_single_attachment link_oracles link_attachment []).events =
      [ProgressEvent.completion "Example.txt" true ""] := by
  refine ⟨by decide, ⟨"Web Link: Example\nURL: ",
    "\nMaterial: \nDescription: \nDate: \n", by decide⟩, by decide, by decide⟩

/-- C8 (confirmed): the Google-native export remap.  Documents,
presentations and drawings are remapped to `application/pdf` with the
filename extension rewritten to `.pdf`; spreadsheets to the XLSX
interchange type with extension `.xlsx`; every other content type passes
through with name and type unchanged; and every record the drive fetch
persists carries the substituted (export) content type. -/
theorem export_remap_correct (name : List Char) :
    (effective_mime "application/vnd.google-apps.document" = "application/pdf" ∧
      export_filename "application/vnd.google-apps.document" name =
        drop_last_ext name ++ ".pdf".toList) ∧
    (effective_mime "application/vnd.google-apps.presentation" = "application/pdf" ∧
      export_filename "application/vnd.google-apps.presentation" name =
        drop_last_ext name ++ ".pdf".toList) ∧
    (effective_mime "application/vnd.google-apps.drawing" = "application/pdf" ∧
      export_filename "application/vnd.google-apps.drawing" name =
        drop_last_ext name ++ ".pdf".toList) ∧
    (effective_mime "application/vnd.google-apps.spreadsheet" =
        "application/vnd.openxmlformats-officedocument.spreadsheetml.sheet" ∧
      export_filename "application/vnd.google-apps.spreadsheet" name =
        drop_last_ext name ++ ".xlsx".toList) ∧
    (∀ mime, export_formats.lookup mime = none →
      effective_mime mime = mime ∧ export_filename mime name = name) ∧
    (∀ (o : FetchOracles) (att : Attachment) (db : List MaterialRecord)
        (md : DriveMetadata), o.metadata = some md →
      ∀ r ∈ (process_drive_file o att db).new_records,
        r.mime_type = effective_mime (md.mimeType.getD "application/octet-stream")) := by
  refine ⟨⟨rfl, rfl⟩, ⟨rfl, rfl⟩, ⟨rfl, rfl⟩, ⟨rfl, rfl⟩, ?_, ?_⟩
  · intro mime h
    constructor
    · rw [effective_mime, h]
      rfl
    · rw [export_filename, h]
  · intro o att db md hmd r hr
    simp only [process_drive_file] at hr
    split at hr
    · simp at hr
    · split at hr
      · next heq =>
        rw [hmd] at heq
        cases heq
      · next md' heq =>
        rw [hmd] at heq
        injection heq with heq'
        subst heq'
        split at hr
        · simp at hr
        · split at hr
          · simp at hr
          · split at hr
            · simp only [List.mem_singleton] at hr
              subst hr
              rfl
            · simp at hr

/-- C8 witness: the pass-through case at a concrete non-native content
type, and the persisted-record conjunct at the concrete dedup scenario
(whose metadata is present). -/
theorem export_remap_correct_witness :
    (effective_mime "text/plain" = "text/plain" ∧
      export_filename "text/plain" "Doc.gdoc".toList = "Doc.gdoc".toList) ∧
    (∀ r ∈ (process_drive_file dedup_oracles dedup_attachment []).new_records,
      r.mime_type = effective_mime "application/octet-stream") :=
  ⟨(export_remap_correct "Doc.gdoc".toList).2.2.2.2.1 "text/plain" (by decide),
    fun r hr => (export_remap_correct "Doc.gdoc".toList).2.2.2.2.2 dedup_oracles
      dedup_attachment [] dedup_metadata rfl r hr⟩

/-! ## C4: a batch of unknown-kind attachments -/

lemma process_unknown (o : FetchOracles) (a : Attachment) (db : List MaterialRecord)
    (h : ¬ supported_type (a.att_type.getD "unknown")) :
    process_single_attachment o a db =
      { events := [ProgressEvent.completion (a.title.getD "Unknown") false
          ("Unsupported attachment type: " ++ a.att_type.getD "unknown")],
        new_records := [], body_fetches := 0, ret := false } := by
  rw [process_single_attachment,
    if_neg (fun heq => h (Or.inl heq)),
    if_neg (fun heq => h (Or.inr (Or.inl heq))),
    if_neg (fun heq => h (Or.inr (Or.inr (Or.inl heq)))),
    if_neg (fun heq => h (Or.inr (Or.inr (Or.inr heq))))]

lemma unsupported_msg_ne_empty (t : String) :
    "Unsupported attachment type: " ++ t ≠ "" := by
  intro h
  have hlen := congrArg String.length h
  rw [String.length_append] at hlen
  have h29 : ("Unsupported attachment type: ").length = 29 := by decide
  have h0 : ("" : String).length = 0 := rfl
  omega

lemma foldl_single_fail (p : DownloadProgress) (ti msg : String) (hmsg : msg ≠ "") :
    ([ProgressEvent.completion ti false msg]).foldl apply_event p =
      { p with failed_files := p.failed_files + 1,
               errors := p.errors ++ [ti ++ ": " ++ msg] } := by
  simp [apply_event, complete_file, hmsg]

lemma run_batch_unknown (os : Nat → FetchOracles) :
    ∀ (atts : List Attachment) (i : Nat) (p : DownloadProgress)
      (db : List MaterialRecord),
    (∀ a ∈ atts, ¬ supported_type (a.att_type.getD "unknown")) →
    (run_batch os atts i p db).1.completed_files = p.completed_files ∧
    (run_batch os atts i p db).1.failed_files = p.failed_files + atts.length ∧
    (run_batch os atts i p db).1.duplicates_skipped = p.duplicates_skipped ∧
    (run_batch os atts i p db).1.total_files = p.total_files ∧
    (run_batch os atts i p db).1.errors.length = p.errors.length + atts.length ∧
    (∀ e ∈ (run_batch os atts i p db).1.errors, e ∈ p.errors ∨
      ∃ ti t, e = ti ++ ": " ++ ("Unsupported attachment type: " ++ t)) ∧
    (run_batch os atts i p db).2 = db := by
  intro atts
  induction atts with
  | nil =>
    intro i p db _
    exact ⟨rfl, by simp [run_batch], rfl, rfl, by simp [run_batch],
      fun e he => Or.inl he, rfl⟩
  | cons a as ih =>
    intro i p db h
    rw [run_batch]
    rw [process_unknown (os i) a db (h a (List.mem_cons_self a as))]
    rw [foldl_single_fail p (a.title.getD "Unknown") _
      (unsupported_msg_ne_empty (a.att_type.getD "unknown"))]
    obtain ⟨h1, h2, h3, h4, h5, h6, h7⟩ := ih (i + 1)
      { p with failed_files := p.failed_files + 1,
               errors := p.errors ++ [a.title.getD "Unknown" ++ ": " ++
                 ("Unsupported attachment type: " ++ a.att_type.getD "unknown")] }
      (db ++ []) (fun b hb => h b (List.mem_cons_of_mem a hb))
    refine ⟨h1, ?_, h3, h4, ?_, ?_, by rw [h7]; simp⟩
    · rw [h2]
      simp only [List.length_cons]
      omega
    · rw [h5]
      simp only [List.length_append, List.length_cons, List.length_nil,
        List.length_cons]
      omega
    · intro e he
      rcases h6 e he with he' | he'
      · rcases List.mem_append.mp he' with he'' | he''
        · exact Or.inl he''
        · refine Or.inr ⟨a.title.getD "Unknown", a.att_type.getD "unknown", ?_⟩
          simpa using he''
      · exact Or.inr he'

/-- C4 (confirmed): a batch of attachments whose kind is none of
`drive_file`, `youtube_video`, `link`, `form` ends with
`failed_files = N`, `completed_files = 0`, no duplicates, a complete
tracker, one error entry per item each carrying the
"Unsupported attachment type" label, and no database writes — each item
is processed exactly once (one completion event each), never retried. -/
theorem unknown_batch_all_fail (os : Nat → FetchOracles) (atts : List Attachment)
    (db : List MaterialRecord)
    (h : ∀ a ∈ atts, ¬ supported_type (a.att_type.getD "unknown")) :
    (download_attachments os atts db).1.failed_files = atts.length ∧
    (download_attachments os atts db).1.completed_files = 0 ∧
    (download_attachments os atts db).1.duplicates_skipped = 0 ∧
    is_complete (download_attachments os atts db).1 = true ∧
    (download_attachments os atts db).1.errors.length = atts.length ∧
    (∀ e ∈ (download_attachments os atts db).1.errors,
      ∃ ti t, e = ti ++ ": " ++ ("Unsupported attachment type: " ++ t)) ∧
    (download_attachments os atts db).2 = db := by
  obtain ⟨h1, h2, h3, h4, h5, h6, h7⟩ :=
    run_batch_unknown os atts 0 (fresh_progress atts.length) db h
  rw [download_attachments]
  refine ⟨by rw [h2]; simp [fresh_progress], by rw [h1]; rfl, by rw [h3]; rfl, ?_,
    by rw [h5]; simp [fresh_progress], ?_, h7⟩
  · rw [is_complete, h1, h2, h3, h4]
    simp [fresh_progress]
  · intro e he
    rcases h6 e he with he' | he'
    · simp [fresh_progress] at he'
    · exact he'

/-- C4 witness: a concrete batch of two unknown-kind attachments. -/
theorem unknown_batch_all_fail_witness :
    (download_attachments (fun _ => failing_oracles)
        [{ att_type := some "weird", title := some "A" }, {}] []).1.failed_files = 2 ∧
    (download_attachments (fun _ => failing_oracles)
        [{ att_type := some "weird", title := some "A" }, {}] []).1.completed_files
      = 0 ∧
    is_complete (download_attachments (fun _ => failing_oracles)
        [{ att_type := some "weird", title := some "A" }, {}] []).1 = true := by
  have h := unknown_batch_all_fail (fun _ => failing_oracles)
    [{ att_type := some "weird", title := some "A" }, {}] [] (by decide)
  exact ⟨h.1, h.2.1, h.2.2.2.1⟩

end ClassroomDownloader
